import Mathlib

/-
Verification of the bm2 process supervisor (TypeScript/Bun).

Shallow embedding of the core modules:
  * `ProcessManager` (src/manager/process-manager.ts): registry of supervised
    child processes, bounded log buffers, start/stop/list/getLogs.
  * The daemon's socket data handler (src/daemon/daemon.ts): newline-delimited
    JSON framing, message dispatch, attach streaming.

Modelling conventions:
  * `Date.now()` readings are passed explicitly as `now : Nat` parameters
    (milliseconds).  The source renders a process id with
    `Date.now().toString()`; decimal rendering of a natural number is
    injective and order-preserving, so the model keeps the numeric value and
    the wire layer is understood to carry its decimal rendering.  Registry
    keys (JS `Map<string, ProcessInfo>` keyed by those decimal strings) are
    correspondingly `Nat`; `keyOfString` below is the exact inverse of the
    rendering, so lookups by arbitrary wire strings agree with the source.
  * The JS `Map` preserves insertion order and `Map.set` replaces the value
    of an existing key in place; `mapSet`/`mapGet`/`mapDelete` model that on
    an association list.
  * `socket.write(JSON.stringify(...))` calls are modelled by the `Out`
    codes below, one constructor per distinct document the daemon emits.
  * The attach feature patches `proc.logs.push` with a Proxy streaming each
    pushed entry to the socket.  The hook lives on the array object itself:
    `subs` holds the session ids hooked on the *current* `logs` array, and
    reassigning `logs` (as eviction in `addLog` does via `slice`) discards
    them, exactly as the Proxy is lost when the array is replaced.
  * `Bun.spawn`, the filesystem config mirror (`saveConfig`), and the
    `Logger` diagnostics are external effects with no influence on the
    registry state; they are not modelled (the spec excludes them from the
    core).
-/

namespace BM2

/-- One retained log line (interface LogEntry): timestamp (ms), text payload,
stderr flag (`isError` defaults to false at the call sites). -/
structure LogEntry where
  timestamp : Nat
  message : String
  isError : Bool
deriving Repr, DecidableEq

/-- Spawn options (interface ProcessOptions); both fields optional in TS. -/
structure ProcessOptions where
  restart : Option Bool := none
  maxLogLines : Option Nat := none
deriving Repr, DecidableEq

/-- A registry record (interface ProcessInfo).  `exitCode` models the live
`Bun.Subprocess` handle's `exitCode` property (`null` while running).
`subs` models the attach hooks installed on the current `logs` array. -/
structure ProcessInfo where
  id : Nat
  script : String
  startTime : Nat
  logs : List LogEntry
  options : ProcessOptions
  exitCode : Option Int
  subs : List Nat
deriving Repr, DecidableEq

/-- One row of a `list()` snapshot (interface ProcessListInfo). -/
structure ProcessListInfo where
  id : Nat
  script : String
  uptime : Int
  status : String
deriving Repr, DecidableEq

/-- JS `Map.get`: value of the first (only) entry with the given key. -/
def mapGet {α : Type} : List (Nat × α) → Nat → Option α
  | [], _ => none
  | e :: rest, k => if e.1 = k then some e.2 else mapGet rest k

/-- JS `Map.set`: replace the value in place if the key is present (keeping
its insertion position), otherwise append a new entry at the end. -/
def mapSet {α : Type} : List (Nat × α) → Nat → α → List (Nat × α)
  | [], k, v => [(k, v)]
  | e :: rest, k, v => if e.1 = k then (k, v) :: rest else e :: mapSet rest k v

/-- JS `Map.delete`: remove the entry with the given key, if any. -/
def mapDelete {α : Type} : List (Nat × α) → Nat → List (Nat × α)
  | [], _ => []
  | e :: rest, k => if e.1 = k then rest else e :: mapDelete rest k

/-- The `ProcessManager`'s registry (`private processes: Map<string, ProcessInfo>`),
in insertion order. -/
structure ManagerState where
  processes : List (Nat × ProcessInfo)
deriving Repr, DecidableEq

/-- The eviction threshold used by `addLog`:
`processInfo.options.maxLogLines || 1000` — `0` is falsy in JS, so a
configured value of `0` (and an absent value) falls back to `1000`. -/
def maxLines (o : ProcessOptions) : Nat :=
  match o.maxLogLines with
  | some v => if v = 0 then 1000 else v
  | none => 1000

/-- `ProcessManager.addLog`: append one entry, then trim to the most recent
`maxLines` entries if the buffer exceeds that threshold (`logs.slice(-max)`).
Returns the record together with the sessions whose push hook streamed the
entry (the Proxy fires before the underlying push).  Trimming reassigns
`processInfo.logs` to a fresh array, so the hooks on the old array are
discarded (`subs := []`). -/
def ProcessInfo.addLog (p : ProcessInfo) (message : String) (isError : Bool)
    (now : Nat) : ProcessInfo × List Nat :=
  let logEntry : LogEntry := { timestamp := now, message := message, isError := isError }
  let notified := p.subs
  let logs1 := p.logs ++ [logEntry]
  if logs1.length > maxLines p.options then
    ({ p with logs := logs1.drop (logs1.length - maxLines p.options), subs := [] }, notified)
  else
    ({ p with logs := logs1 }, notified)

/-- `ProcessManager.start(script, options)`: mint `processId = Date.now()`
(the source renders it with `.toString()`), register a fresh record whose
stored options are `{ maxLogLines: 1000, ...options }` (the caller's
`maxLogLines`, even `0`, overrides the default), and return the id.  The
spawn itself, the stdout/stderr pipes and the config mirror are external
effects; log arrival and exit notification are modelled by
`ManagerState.appendLog` and `exitEvent` below. -/
def ManagerState.start (st : ManagerState) (script : String)
    (options : ProcessOptions) (now : Nat) : ManagerState × Nat :=
  let processId := now
  let processInfo : ProcessInfo :=
    { id := processId
      script := script
      startTime := now
      logs := []
      options := { restart := options.restart
                   maxLogLines := some (options.maxLogLines.getD 1000) }
      exitCode := none
      subs := [] }
  ({ processes := mapSet st.processes processId processInfo }, processId)

/-- The stdout/stderr `WritableStream` handlers: each received chunk becomes
one `addLog` call on the record captured by the closure.  Registry glue for
the in-place mutation of the shared `ProcessInfo` object. -/
def ManagerState.appendLog (st : ManagerState) (pid : Nat) (message : String)
    (isError : Bool) (now : Nat) : ManagerState × List Nat :=
  match mapGet st.processes pid with
  | some p =>
    let r := p.addLog message isError now
    ({ processes := mapSet st.processes pid r.1 }, r.2)
  | none => (st, [])

/-- `ProcessManager.list()`: one snapshot row per registry entry, in
insertion order; `uptime = Date.now() - startTime`, `status` is `"running"`
while the handle's `exitCode` is null and the fixed string `"stopped"`
otherwise. -/
def ManagerState.list (st : ManagerState) (now : Nat) : List ProcessListInfo :=
  st.processes.map (fun e =>
    { id := e.2.id
      script := e.2.script
      uptime := (now : Int) - (e.2.startTime : Int)
      status := if e.2.exitCode = none then "running" else "stopped" })

/-- `ProcessManager.getLogs(processId, startIndex = 0, count = 200)`:
`none` models the thrown `Process not found` error; otherwise
`logs.slice(startIndex, Math.min(startIndex + count, logs.length))`. -/
def ManagerState.getLogs (st : ManagerState) (processId : Nat)
    (startIndex : Nat := 0) (count : Nat := 200) : Option (List LogEntry) :=
  match mapGet st.processes processId with
  | none => none
  | some p =>
    let logs := p.logs
    let endIndex := min (startIndex + count) logs.length
    some ((logs.take endIndex).drop startIndex)

/-- `ProcessManager.stop(processId)`: if registered, kill the child (the
returned flag records that `kill()` was invoked) and delete the record;
otherwise a silent no-op. -/
def ManagerState.stop (st : ManagerState) (processId : Nat) :
    ManagerState × Bool :=
  match mapGet st.processes processId with
  | some _ => ({ processes := mapDelete st.processes processId }, true)
  | none => (st, false)

/-- `ProcessManager.getProcess(processId)`. -/
def ManagerState.getProcess (st : ManagerState) (pid : Nat) : Option ProcessInfo :=
  mapGet st.processes pid

/-- The OS delivering a child's exit code: the `Bun.Subprocess` handle's
`exitCode` property becomes non-null on the registered record (observed by
`list()`); the registry itself is not touched. -/
def recordExit (st : ManagerState) (pid : Nat) (code : Int) : ManagerState :=
  match mapGet st.processes pid with
  | some p => { processes := mapSet st.processes pid { p with exitCode := some code } }
  | none => st

/-- The `process.exited.then` continuation registered by `start`: if the exit
code is non-zero and the caller's `options.restart` is truthy, re-invoke
`start` with the same script and options (at a fresh clock reading `now`),
returning the new id; otherwise do nothing.  `recordExit` models the handle
update that accompanies every exit. -/
def exitEvent (st : ManagerState) (pid : Nat) (script : String)
    (options : ProcessOptions) (code : Int) (now : Nat) :
    ManagerState × Option Nat :=
  let st1 := recordExit st pid code
  if code ≠ 0 ∧ options.restart = some true then
    let r := st1.start script options now
    (r.1, some r.2)
  else
    (st1, none)

/-- A parsed JSON document, as produced by `JSON.parse` on the protocol's
messages.  Numbers are integers: the wire protocol only ever carries integer
counts and indices (fractions and exponents are unused). -/
inductive Json where
  | null
  | bool (b : Bool)
  | num (n : Int)
  | str (s : String)
  | arr (elems : List Json)
  | obj (fields : List (String × Json))

/-- Whitespace accepted around JSON tokens (`JSON.parse` skips these). -/
def isWs (c : Char) : Bool :=
  c == ' ' || c == '\n' || c == '\t' || c == '\r'

/-- Drop leading JSON whitespace. -/
def skipWs : List Char → List Char
  | [] => []
  | c :: rest => if isWs c then skipWs rest else c :: rest

/-- Body of a JSON string literal, after the opening quote: collect characters
up to the closing quote.  The escapes the protocol can produce are handled;
others reject. -/
def parseStrChars : Nat → List Char → List Char → Option (String × List Char)
  | 0, _, _ => none
  | _ + 1, _, [] => none
  | fuel + 1, acc, c :: rest =>
    if c == '"' then some (String.mk acc.reverse, rest)
    else if c == '\\' then
      match rest with
      | [] => none
      | d :: rest2 =>
        if d == '"' then parseStrChars fuel ('"' :: acc) rest2
        else if d == '\\' then parseStrChars fuel ('\\' :: acc) rest2
        else if d == '/' then parseStrChars fuel ('/' :: acc) rest2
        else if d == 'n' then parseStrChars fuel ('\n' :: acc) rest2
        else if d == 't' then parseStrChars fuel ('\t' :: acc) rest2
        else if d == 'r' then parseStrChars fuel ('\r' :: acc) rest2
        else none
    else parseStrChars fuel (c :: acc) rest

/-- A non-empty run of decimal digits and its value. -/
def parseDigits (cs : List Char) : Option (Nat × List Char) :=
  let ds := cs.takeWhile (fun c => c.isDigit)
  if ds.isEmpty then none
  else some (ds.foldl (fun a c => a * 10 + (c.toNat - 48)) 0, cs.drop ds.length)

/-- A JSON integer, with optional leading minus. -/
def parseNum (cs : List Char) : Option (Int × List Char) :=
  match cs with
  | '-' :: rest => (parseDigits rest).map (fun r => (-(r.1 : Int), r.2))
  | _ => (parseDigits cs).map (fun r => ((r.1 : Int), r.2))

mutual

/-- One JSON value, leading whitespace allowed. -/
def parseVal : Nat → List Char → Option (Json × List Char)
  | 0, _ => none
  | fuel + 1, cs =>
    match skipWs cs with
    | [] => none
    | c :: rest =>
      if c == '"' then
        (parseStrChars (rest.length + 1) [] rest).map (fun r => (Json.str r.1, r.2))
      else if c == '[' then parseElems fuel rest []
      else if c == '\x7b' then parseMembers fuel rest []
      else if c == 't' then
        match rest with
        | 'r' :: 'u' :: 'e' :: rest2 => some (Json.bool true, rest2)
        | _ => none
      else if c == 'f' then
        match rest with
        | 'a' :: 'l' :: 's' :: 'e' :: rest2 => some (Json.bool false, rest2)
        | _ => none
      else if c == 'n' then
        match rest with
        | 'u' :: 'l' :: 'l' :: rest2 => some (Json.null, rest2)
        | _ => none
      else if c == '-' || c.isDigit then
        (parseNum (c :: rest)).map (fun r => (Json.num r.1, r.2))
      else none

/-- Array elements after `[`, accumulating parsed values. -/
def parseElems : Nat → List Char → List Json → Option (Json × List Char)
  | 0, _, _ => none
  | fuel + 1, cs, acc =>
    match skipWs cs with
    | [] => none
    | c :: rest =>
      if c == ']' && acc.isEmpty then some (Json.arr [], rest)
      else
        match parseVal fuel (c :: rest) with
        | none => none
        | some (v, cs2) =>
          match skipWs cs2 with
          | ',' :: cs3 => parseElems fuel cs3 (acc ++ [v])
          | ']' :: cs3 => some (Json.arr (acc ++ [v]), cs3)
          | _ => none

/-- Object members after the opening brace, accumulating parsed fields. -/
def parseMembers : Nat → List Char → List (String × Json) →
    Option (Json × List Char)
  | 0, _, _ => none
  | fuel + 1, cs, acc =>
    match skipWs cs with
    | [] => none
    | c :: rest =>
      if c == '\x7d' && acc.isEmpty then some (Json.obj [], rest)
      else if c == '"' then
        match parseStrChars (rest.length + 1) [] rest with
        | none => none
        | some (key, cs2) =>
          match skipWs cs2 with
          | ':' :: cs3 =>
            match parseVal fuel cs3 with
            | none => none
            | some (v, cs4) =>
              match skipWs cs4 with
              | ',' :: cs5 => parseMembers fuel cs5 (acc ++ [(key, v)])
              | '\x7d' :: cs5 => some (Json.obj (acc ++ [(key, v)]), cs5)
              | _ => none
          | _ => none
      else none

end

/-- `JSON.parse(s)`: one JSON document, surrounded by optional whitespace
(which is how a message body followed by its `"\n"` delimiter parses);
anything left over after the document — such as a second concatenated
document — is a syntax error (`none`). -/
def jsonParse (s : String) : Option Json :=
  match parseVal (2 * s.length + 2) s.data with
  | some (v, rest) => if (skipWs rest).isEmpty then some v else none
  | none => none

/-- JS property access `msg.key` on a parsed document: a field of an object,
`undefined` (`none`) otherwise. -/
def getField (j : Json) (key : String) : Option Json :=
  match j with
  | Json.obj fields => (fields.find? (fun f => f.1 == key)).map (fun f => f.2)
  | _ => none

/-- A field that is used as a string (`undefined`/non-string collapse to
`none`, which at the use sites behaves as a missing id/script). -/
def asStr : Option Json → Option String
  | some (Json.str s) => some s
  | _ => none

/-- Value of a run of decimal digit characters. -/
def digitsVal (cs : List Char) : Nat :=
  cs.foldl (fun a c => a * 10 + (c.toNat - 48)) 0

/-- The registry key denoted by a wire string: the exact inverse of the
decimal rendering of the numeric process ids — the string matches a key
`n` exactly when it is the canonical decimal numeral of `n` (any other
string matches no key, exactly as in the string-keyed map). -/
def keyOfString (s : String) : Option Nat :=
  match s.data with
  | [] => none
  | cs =>
    if cs.all (fun c => c.isDigit) then
      let n := digitsVal cs
      if Nat.repr n = s then some n else none
    else none

/-- `msg.options` decoded into `ProcessOptions`: a missing options field is
the `= {}` parameter default; non-object values spread to no properties;
non-boolean/non-numeric fields are ignored (the protocol sends booleans and
non-negative counts). -/
def decodeOptions (j : Option Json) : ProcessOptions :=
  match j with
  | some v =>
    { restart := match getField v "restart" with
        | some (Json.bool b) => some b
        | _ => none
      maxLogLines := match getField v "maxLogLines" with
        | some (Json.num n) => some n.toNat
        | _ => none }
  | none => {}

/-- One document written to a connection, one constructor per distinct
`socket.write(JSON.stringify(...))` in the daemon. -/
inductive Out where
  | okId (id : Nat)
  | stopped
  | okList (l : List ProcessListInfo)
  | okLogs (l : List LogEntry)
  | notFound
  | invalidType
  | invalidFormat
  | logFrame (e : LogEntry)
deriving Repr, DecidableEq

/-- Per-connection state of the daemon's data handler: the accumulation
buffer, whether `socket.end` was called, and an identifier for the attach
session this connection would register. -/
structure DaemonConn where
  sessId : Nat
  buffer : String
  closed : Bool
deriving Repr, DecidableEq

/-- The body of the daemon's `switch (msg.type)`, inside the `try`:
`none` models a thrown dispatch fault (caught by the data handler), any
other result carries the new manager state, connection state, and the
documents written.  `msg.type` on a `null` document throws in JS. -/
def dispatch (mgr : ManagerState) (conn : DaemonConn) (msg : Json)
    (now : Nat) : Option (ManagerState × DaemonConn × List Out) :=
  match msg with
  | Json.null => none
  | _ =>
    match asStr (getField msg "type") with
    | some "start" =>
      match asStr (getField msg "script") with
      | some script =>
        let r := mgr.start script (decodeOptions (getField msg "options")) now
        some (r.1, conn, [Out.okId r.2])
      | none => none
    | some "stop" =>
      let mgr2 := match asStr (getField msg "processId") with
        | some s =>
          match keyOfString s with
          | some pid => (mgr.stop pid).1
          | none => mgr
        | none => mgr
      some (mgr2, conn, [Out.stopped])
    | some "list" => some (mgr, conn, [Out.okList (mgr.list now)])
    | some "logs" =>
      match asStr (getField msg "processId") with
      | some s =>
        match keyOfString s with
        | some pid =>
          match mgr.getLogs pid 0 200 with
          | some logs => some (mgr, conn, [Out.okLogs logs])
          | none => none
        | none => none
      | none => none
    | some "attach" =>
      let pr := match asStr (getField msg "processId") with
        | some s =>
          match keyOfString s with
          | some pid => (mgr.getProcess pid).map (fun p => (pid, p))
          | none => none
        | none => none
      match pr with
      | none => some (mgr, { conn with closed := true }, [Out.notFound])
      | some (pid, p) =>
        let frames := p.logs.map Out.logFrame
        let p2 := { p with subs := p.subs ++ [conn.sessId] }
        some ({ processes := mapSet mgr.processes pid p2 }, conn, frames)
    | _ => some (mgr, conn, [Out.invalidType])

/-- JS `buffer.endsWith(suffix)` (executable model of the library test the
handler applies to its accumulated input). -/
def strEndsWith (s suffix : String) : Bool :=
  List.isSuffixOf suffix.data s.data

/-- The daemon's `socket.on("data", ...)` handler: append the chunk to the
buffer; only when the buffer ends in the newline delimiter, `JSON.parse` it
and dispatch; a parse failure or a thrown dispatch fault is caught, answers
one `Invalid message format` document, and resets only the buffer (the
connection object is otherwise untouched, so it stays open). -/
def onData (mgr : ManagerState) (conn : DaemonConn) (chunk : String)
    (now : Nat) : ManagerState × DaemonConn × List Out :=
  let buffer := conn.buffer ++ chunk
  if strEndsWith buffer "\n" then
    match jsonParse buffer with
    | none => (mgr, { conn with buffer := "" }, [Out.invalidFormat])
    | some msg =>
      match dispatch mgr { conn with buffer := "" } msg now with
      | some r => r
      | none => (mgr, { conn with buffer := "" }, [Out.invalidFormat])
  else
    (mgr, { conn with buffer := buffer }, [])

/-- A step of one supervised process's life as seen by attach sessions:
either a new session attaches (daemon `attach` case: replay the retained
window, then hook `logs.push`), or a chunk arrives on an output stream
(an `addLog` call). -/
inductive PEvent where
  | attach (sess : Nat)
  | append (message : String) (isError : Bool) (t : Nat)

/-- Run a sequence of attach/append events against one record, collecting
every `(session, document)` written to an attach socket. -/
def runProc : ProcessInfo → List PEvent → ProcessInfo × List (Nat × Out)
  | p, [] => (p, [])
  | p, PEvent.attach s :: rest =>
    let replay := p.logs.map (fun e => (s, Out.logFrame e))
    let r := runProc { p with subs := p.subs ++ [s] } rest
    (r.1, replay ++ r.2)
  | p, PEvent.append m err t :: rest =>
    let a := p.addLog m err t
    let outs := a.2.map (fun s => (s, Out.logFrame ⟨t, m, err⟩))
    let r := runProc a.1 rest
    (r.1, outs ++ r.2)

/-- The documents one attach session receives during a run. -/
def receivedBy (sess : Nat) (outs : List (Nat × Out)) : List Out :=
  (outs.filter (fun o => o.1 == sess)).map (fun o => o.2)

/-- A sequence of output chunks, each `(message, isError, arrival time)`,
folded through `addLog` — the life of one process's log buffer. -/
def appendAll (p : ProcessInfo) (msgs : List (String × Bool × Nat)) : ProcessInfo :=
  msgs.foldl (fun q x => (q.addLog x.1 x.2.1 x.2.2).1) p

/-- The `LogEntry` each chunk of `appendAll` becomes. -/
def entriesOf (msgs : List (String × Bool × Nat)) : List LogEntry :=
  msgs.map (fun x => { timestamp := x.2.2, message := x.1, isError := x.2.1 })

/-- A just-registered record with the given stored options (what `start`
creates, abstracting the identity fields). -/
def freshProc (opts : ProcessOptions) : ProcessInfo :=
  { id := 0, script := "", startTime := 0, logs := [], options := opts
    exitCode := none, subs := [] }

/-- Concrete fixtures used by the closed counterexample/scenario theorems. -/
def listDoc : String := "\x7b\"type\":\"list\"\x7d\n"

/-- A wire `logs` request asking for the slice at startIndex 1 of length 1. -/
def req9 : String :=
  "\x7b\"type\":\"logs\",\"processId\":\"100\",\"startIndex\":1,\"count\":1\x7d\n"

/-- Three retained entries of the fixture process. -/
def e0c : LogEntry := { timestamp := 1, message := "e0", isError := false }

/-- Second fixture entry. -/
def e1c : LogEntry := { timestamp := 2, message := "e1", isError := false }

/-- Third fixture entry (a stderr line). -/
def e2c : LogEntry := { timestamp := 3, message := "e2", isError := true }

/-- A registered process holding three retained log entries. -/
def pRec : ProcessInfo :=
  { id := 100, script := "app.js", startTime := 100, logs := [e0c, e1c, e2c]
    options := { restart := none, maxLogLines := some 1000 }
    exitCode := none, subs := [] }

/-- A registry with the single record `pRec` under its id. -/
def mgr9 : ManagerState := ⟨[(100, pRec)]⟩

/-- A record whose child exited with code 3 (handle's exitCode set). -/
def pExited : ProcessInfo :=
  { id := 100, script := "app.js", startTime := 100, logs := []
    options := { restart := none, maxLogLines := some 1000 }
    exitCode := some 3, subs := [] }

/-- A process with capacity 2 holding one retained entry, used for the
attach-stream scenario. -/
def p2attach : ProcessInfo :=
  { id := 100, script := "app.js", startTime := 100, logs := [e0c]
    options := { restart := none, maxLogLines := some 2 }
    exitCode := none, subs := [] }

/-- Attach one session, then append three chunks — enough for the buffer to
exceed its capacity once. -/
def trace2 : List PEvent :=
  [PEvent.attach 1, PEvent.append "a1" false 102,
   PEvent.append "a2" false 103, PEvent.append "a3" false 104]

/-- Chunks used by the C1 witness. -/
def wmsgs : List (String × Bool × Nat) := [("m1", false, 11), ("m2", true, 12), ("m3", false, 13)]

/- ===================== Theorems ===================== -/

theorem mapGet_mapSet_self {α : Type} (m : List (Nat × α)) (k : Nat) (v : α) :
    mapGet (mapSet m k v) k = some v := by
  induction m with
  | nil => simp [mapGet, mapSet]
  | cons e rest ih =>
    by_cases h : e.1 = k
    · simp [mapSet, h, mapGet]
    · simp [mapSet, h, mapGet, ih]

theorem mapGet_mapSet_ne {α : Type} (m : List (Nat × α)) (k q : Nat) (v : α)
    (h : q ≠ k) : mapGet (mapSet m k v) q = mapGet m q := by
  induction m with
  | nil =>
    simp only [mapSet, mapGet]
    rw [if_neg (fun hh => h (Eq.symm hh))]
  | cons e rest ih =>
    by_cases he : e.1 = k
    · subst he
      simp only [mapSet, if_pos rfl, mapGet]
      rw [if_neg (fun hh => h (Eq.symm hh)), if_neg (fun hh => h (Eq.symm hh))]
    · simp only [mapSet, if_neg he, mapGet]
      by_cases hq : e.1 = q <;> simp [hq, ih]

theorem keys_mapSet_of_get_some {α : Type} (m : List (Nat × α)) (k : Nat)
    (v w : α) (h : mapGet m k = some w) :
    (mapSet m k v).map Prod.fst = m.map Prod.fst := by
  induction m with
  | nil => simp [mapGet] at h
  | cons e rest ih =>
    by_cases he : e.1 = k
    · simp [mapSet, he]
    · simp only [mapGet, he, if_false] at h
      simp [mapSet, he, ih h]

theorem mapGet_eq_none_of_not_mem {α : Type} (m : List (Nat × α)) (k : Nat)
    (h : k ∉ m.map Prod.fst) : mapGet m k = none := by
  induction m with
  | nil => rfl
  | cons e rest ih =>
    simp only [List.map_cons, List.mem_cons, not_or] at h
    simp only [mapGet, if_neg (fun hh => h.1 (Eq.symm hh))]
    exact ih h.2

theorem mapGet_mapDelete_self {α : Type} (m : List (Nat × α)) (k : Nat)
    (hnd : (m.map Prod.fst).Nodup) : mapGet (mapDelete m k) k = none := by
  induction m with
  | nil => rfl
  | cons e rest ih =>
    simp only [List.map_cons, List.nodup_cons] at hnd
    by_cases he : e.1 = k
    · simp only [mapDelete, if_pos he]
      exact mapGet_eq_none_of_not_mem rest k (he ▸ hnd.1)
    · simp only [mapDelete, if_neg he, mapGet, if_neg he]
      exact ih hnd.2

theorem mapGet_mapDelete_ne {α : Type} (m : List (Nat × α)) (k q : Nat)
    (h : q ≠ k) : mapGet (mapDelete m k) q = mapGet m q := by
  induction m with
  | nil => rfl
  | cons e rest ih =>
    by_cases he : e.1 = k
    · subst he
      have hdel : mapDelete (e :: rest) e.1 = rest := by simp [mapDelete]
      rw [hdel, mapGet, if_neg (fun hh => h (Eq.symm hh))]
    · simp only [mapDelete, if_neg he, mapGet]
      by_cases hq : e.1 = q <;> simp [hq, ih]

theorem addLog_options (p : ProcessInfo) (m : String) (err : Bool) (t : Nat) :
    ((p.addLog m err t).1).options = p.options := by
  simp only [ProcessInfo.addLog]
  split <;> rfl

theorem addLog_logs (p : ProcessInfo) (m : String) (err : Bool) (t : Nat) :
    ((p.addLog m err t).1).logs =
      (p.logs ++ [LogEntry.mk t m err]).drop
        ((p.logs.length + 1) - maxLines p.options) := by
  simp only [ProcessInfo.addLog]
  split
  next h => simp
  next h =>
    simp only [List.length_append, List.length_cons, List.length_nil, Nat.not_lt] at h
    have hz : p.logs.length + 1 - maxLines p.options = 0 := by omega
    simp [hz]

theorem appendAll_logs (msgs : List (String × Bool × Nat)) :
    ∀ p : ProcessInfo, p.logs.length ≤ maxLines p.options →
      (appendAll p msgs).logs =
        (p.logs ++ entriesOf msgs).drop
          ((p.logs.length + msgs.length) - maxLines p.options) ∧
      (appendAll p msgs).options = p.options := by
  induction msgs with
  | nil =>
    intro p hp
    simp [appendAll, entriesOf, Nat.sub_eq_zero_of_le hp]
  | cons x xs ih =>
    intro p hp
    have hopt := addLog_options p x.1 x.2.1 x.2.2
    have hlogs := addLog_logs p x.1 x.2.1 x.2.2
    set p' := (p.addLog x.1 x.2.1 x.2.2).1 with hp'
    have hstep : appendAll p (x :: xs) = appendAll p' xs := rfl
    have hlen : p'.logs.length ≤ maxLines p'.options := by
      rw [hopt, hlogs, List.length_drop]
      simp only [List.length_append, List.length_cons, List.length_nil]
      omega
    obtain ⟨h1, h2⟩ := ih p' hlen
    rw [hstep]
    refine ⟨?_, h2.trans hopt⟩
    rw [h1, hlogs, hopt]
    have hd : (p.logs.length + 1) - maxLines p.options ≤
        (p.logs ++ [LogEntry.mk x.2.2 x.1 x.2.1]).length := by
      simp only [List.length_append, List.length_cons, List.length_nil]
      omega
    rw [← List.drop_append_of_le_length hd, List.drop_drop]
    have harr : entriesOf (x :: xs) = LogEntry.mk x.2.2 x.1 x.2.1 :: entriesOf xs := rfl
    rw [harr]
    have hassoc : (p.logs ++ [LogEntry.mk x.2.2 x.1 x.2.1]) ++ entriesOf xs =
        p.logs ++ (LogEntry.mk x.2.2 x.1 x.2.1 :: entriesOf xs) := by
      simp
    rw [← hassoc]
    congr 1
    rw [List.length_drop]
    simp only [List.length_append, List.length_cons, List.length_nil]
    omega

theorem appendAll_logs_of_nil (p : ProcessInfo) (hnil : p.logs = []) (mx : Nat)
    (hmx : maxLines p.options = mx) (msgs : List (String × Bool × Nat)) :
    (appendAll p msgs).logs = (entriesOf msgs).drop (msgs.length - mx) ∧
    (appendAll p msgs).logs.length = min msgs.length mx := by
  have h0 : p.logs.length ≤ maxLines p.options := by simp [hnil]
  obtain ⟨h1, _⟩ := appendAll_logs msgs p h0
  rw [hmx, hnil] at h1
  simp only [List.nil_append, List.length_nil, Nat.zero_add] at h1
  refine ⟨h1, ?_⟩
  rw [h1, List.length_drop]
  have hlen : (entriesOf msgs).length = msgs.length := by simp [entriesOf]
  rw [hlen]
  omega

/-- C1: for a process with configured capacity `mx` (via `maxLines`, whose
default is 1000), any sequence of appended chunks leaves exactly the most
recent `min (total, mx)` entries, in original append order (the buffer is
the suffix of the appended sequence obtained by dropping the excess — so no
entry is duplicated and none is reordered). -/
theorem logRing_c1 (opts : ProcessOptions) (mx : Nat)
    (hmx : maxLines opts = mx) (msgs : List (String × Bool × Nat)) :
    (appendAll (freshProc opts) msgs).logs =
      (entriesOf msgs).drop (msgs.length - mx) ∧
    (appendAll (freshProc opts) msgs).logs.length = min msgs.length mx :=
  appendAll_logs_of_nil (freshProc opts) rfl mx hmx msgs

/-- C10: starting a process with `maxLogLines = 0` does not produce a
capacity-0 ring: the stored option is `0`, but the falsy-fallback makes the
eviction threshold 1000, so up to 1000 entries are retained. -/
theorem maxZero_c10 (st : ManagerState) (script : String) (r : Option Bool)
    (now : Nat) :
    ∃ p, ((st.start script { restart := r, maxLogLines := some 0 } now).1).getProcess
        ((st.start script { restart := r, maxLogLines := some 0 } now).2) = some p ∧
      p.options.maxLogLines = some 0 ∧
      maxLines p.options = 1000 ∧
      ∀ msgs : List (String × Bool × Nat),
        (appendAll p msgs).logs = (entriesOf msgs).drop (msgs.length - 1000) ∧
        (appendAll p msgs).logs.length = min msgs.length 1000 := by
  refine ⟨{ id := now, script := script, startTime := now, logs := []
            options := { restart := r, maxLogLines := some 0 }
            exitCode := none, subs := [] },
    mapGet_mapSet_self st.processes now _, rfl, rfl, ?_⟩
  intro msgs
  exact appendAll_logs_of_nil
    { id := now, script := script, startTime := now, logs := []
      options := { restart := r, maxLogLines := some 0 }
      exitCode := none, subs := [] } rfl 1000 rfl msgs

/-- C3 counterexample: ids are `Date.now()` readings, so two `start` calls
within the same millisecond return the *same* id, and the second
registration overwrites the first — ids are neither structurally unique nor
collision-free. -/
theorem startId_c3_counterexample :
    ((⟨[]⟩ : ManagerState).start "a.js" {} 100).2 =
      (((⟨[]⟩ : ManagerState).start "a.js" {} 100).1.start "b.js" {} 100).2 ∧
    (((⟨[]⟩ : ManagerState).start "a.js" {} 100).1.start "b.js" {} 100).1.processes.length = 1 := by
  decide

/-- C3 amended: a minted id is exactly the millisecond clock reading of its
`start` call; whenever a later call observes a strictly larger reading, the
two ids are distinct and the later id is larger (so ids are monotonic and
collision-free exactly when the clock readings are strictly increasing). -/
theorem startId_c3_amended (st : ManagerState) (s1 s2 : String)
    (o1 o2 : ProcessOptions) (t1 t2 : Nat) (h : t1 < t2) :
    (st.start s1 o1 t1).2 = t1 ∧
    ((st.start s1 o1 t1).1.start s2 o2 t2).2 = t2 ∧
    (st.start s1 o1 t1).2 ≠ ((st.start s1 o1 t1).1.start s2 o2 t2).2 ∧
    (st.start s1 o1 t1).2 < ((st.start s1 o1 t1).1.start s2 o2 t2).2 := by
  refine ⟨rfl, rfl, ?_, ?_⟩
  · show t1 ≠ t2
    omega
  · show t1 < t2
    exact h

theorem startId_c3_amended_witness :
    (100 < 101) ∧
    (((⟨[]⟩ : ManagerState).start "a.js" {} 100).2 = 100 ∧
     (((⟨[]⟩ : ManagerState).start "a.js" {} 100).1.start "b.js" {} 101).2 = 101 ∧
     ((⟨[]⟩ : ManagerState).start "a.js" {} 100).2 ≠
       (((⟨[]⟩ : ManagerState).start "a.js" {} 100).1.start "b.js" {} 101).2 ∧
     ((⟨[]⟩ : ManagerState).start "a.js" {} 100).2 <
       (((⟨[]⟩ : ManagerState).start "a.js" {} 100).1.start "b.js" {} 101).2) :=
  ⟨by decide, startId_c3_amended ⟨[]⟩ "a.js" "b.js" {} {} 100 101 (by decide)⟩

/-- C4 counterexample: a crash restarted within the same millisecond as the
original `start` mints the *same* id, and the re-registration replaces the
old record instead of leaving it in the registry — the restarted registry
holds a single fresh record with empty logs where the claim promises a new
id alongside the retained old record. -/
theorem restart_c4_counterexample :
    (exitEvent mgr9 100 "app.js" { restart := some true, maxLogLines := some 1000 } 1 100).2 =
      some 100 ∧
    (exitEvent mgr9 100 "app.js" { restart := some true, maxLogLines := some 1000 } 1 100).1.processes.length = 1 ∧
    ((exitEvent mgr9 100 "app.js" { restart := some true, maxLogLines := some 1000 } 1 100).1.getProcess 100).map
        ProcessInfo.logs = some [] ∧
    pRec.logs ≠ [] := by
  decide

/-- C4 amended: when a supervised child exits, `restart=true` with a
non-zero code re-invokes `start` with the same script and options — and,
provided the restart's clock reading is not an already-registered id, this
yields a fresh running record under a new id while the old record remains;
with restart unset/false or a zero exit code, no new record appears (the
registry's keys are unchanged; only the handle's exit code is recorded). -/
theorem restart_c4_amended (st : ManagerState) (pid : Nat) (p : ProcessInfo)
    (script : String) (opts : ProcessOptions) (code : Int) (now : Nat)
    (hp : st.getProcess pid = some p) :
    ((code ≠ 0 ∧ opts.restart = some true) → st.getProcess now = none →
      (exitEvent st pid script opts code now).2 = some now ∧
      now ≠ pid ∧
      (∃ q, (exitEvent st pid script opts code now).1.getProcess now = some q ∧
        q.script = script ∧ q.exitCode = none ∧ q.logs = [] ∧ q.startTime = now) ∧
      (exitEvent st pid script opts code now).1.getProcess pid =
        some { p with exitCode := some code }) ∧
    (¬ (code ≠ 0 ∧ opts.restart = some true) →
      (exitEvent st pid script opts code now).2 = none ∧
      (exitEvent st pid script opts code now).1.processes.map Prod.fst =
        st.processes.map Prod.fst ∧
      (exitEvent st pid script opts code now).1.getProcess pid =
        some { p with exitCode := some code }) := by
  have hg : mapGet st.processes pid = some p := hp
  have hrec : recordExit st pid code =
      ⟨mapSet st.processes pid { p with exitCode := some code }⟩ := by
    simp [recordExit, hg]
  constructor
  · intro hcond hnow
    have hne : now ≠ pid := by
      intro heq
      rw [heq, hp] at hnow
      exact Option.noConfusion hnow
    have hev : exitEvent st pid script opts code now =
        (⟨mapSet (mapSet st.processes pid { p with exitCode := some code }) now
          { id := now, script := script, startTime := now, logs := []
            options := { restart := opts.restart
                         maxLogLines := some (opts.maxLogLines.getD 1000) }
            exitCode := none, subs := [] }⟩, some now) := by
      simp only [exitEvent, if_pos hcond, ManagerState.start, hrec]
    refine ⟨by rw [hev], hne, ?_, ?_⟩
    · rw [hev]
      exact ⟨_, mapGet_mapSet_self _ _ _, rfl, rfl, rfl, rfl⟩
    · rw [hev]
      show mapGet (mapSet (mapSet st.processes pid _) now _) pid = _
      rw [mapGet_mapSet_ne _ now pid _ (fun hh => hne (Eq.symm hh)),
        mapGet_mapSet_self]
  · intro hcond
    have hev2 : exitEvent st pid script opts code now =
        (⟨mapSet st.processes pid { p with exitCode := some code }⟩, none) := by
      simp only [exitEvent, if_neg hcond, hrec]
    refine ⟨by rw [hev2], ?_, ?_⟩
    · rw [hev2]
      exact keys_mapSet_of_get_some st.processes pid _ p hg
    · rw [hev2]
      exact mapGet_mapSet_self _ _ _

theorem restart_c4_amended_witness :
    mgr9.getProcess 100 = some pRec ∧
    (((1 : Int) ≠ 0 ∧ (some true : Option Bool) = some true) ∧
      mgr9.getProcess 101 = none) ∧
    ((exitEvent mgr9 100 "app.js" { restart := some true, maxLogLines := some 1000 } 1 101).2 =
        some 101 ∧
      (101 : Nat) ≠ 100 ∧
      (∃ q, (exitEvent mgr9 100 "app.js" { restart := some true, maxLogLines := some 1000 } 1 101).1.getProcess 101 =
          some q ∧ q.script = "app.js" ∧ q.exitCode = none ∧ q.logs = [] ∧ q.startTime = 101) ∧
      (exitEvent mgr9 100 "app.js" { restart := some true, maxLogLines := some 1000 } 1 101).1.getProcess 100 =
        some { pRec with exitCode := some (1 : Int) }) :=
  ⟨by decide, ⟨⟨by decide, rfl⟩, by decide⟩,
    (restart_c4_amended mgr9 100 pRec "app.js"
      { restart := some true, maxLogLines := some 1000 } 1 101 (by decide)).1
      ⟨by decide, rfl⟩ (by decide)⟩

theorem take_min_length {α : Type} (l : List α) (n : Nat) :
    l.take (min n l.length) = l.take n := by
  rcases Nat.le_total n l.length with h | h
  · rw [min_eq_left h]
  · rw [min_eq_right h, List.take_length, List.take_of_length_le h]

theorem slice_take_drop {α : Type} (l : List α) (s c : Nat) :
    (l.take (min (s + c) l.length)).drop s = (l.drop s).take c := by
  rw [take_min_length, List.drop_take]
  congr 1
  omega

/-- C5: `getLogs(id, start, count)` fails (throws NotFound, modelled `none`)
exactly when the id is unregistered; on a registered id it returns the
contiguous slice of the retained window beginning at `start`, clamped so
that `start + count` never exceeds the available length (equivalently,
`take count` of `drop start`), and an out-of-range `start` yields the empty
slice rather than an error. -/
theorem getLogs_c5 (st : ManagerState) (pid s c : Nat) :
    (st.getLogs pid s c = none ↔ st.getProcess pid = none) ∧
    (∀ p, st.getProcess pid = some p →
      st.getLogs pid s c = some ((p.logs.drop s).take c) ∧
      (p.logs.length ≤ s → st.getLogs pid s c = some [])) := by
  constructor
  · constructor
    · intro h
      cases hg : mapGet st.processes pid with
      | none => exact hg
      | some p =>
        simp only [ManagerState.getLogs, hg] at h
        exact Option.noConfusion h
    · intro h
      simp only [ManagerState.getLogs, ManagerState.getProcess] at h ⊢
      rw [h]
  · intro p hp
    have hg : mapGet st.processes pid = some p := hp
    have hmain : st.getLogs pid s c = some ((p.logs.drop s).take c) := by
      simp only [ManagerState.getLogs, hg]
      rw [slice_take_drop]
    refine ⟨hmain, fun hlen => ?_⟩
    rw [hmain, List.drop_eq_nil_of_le hlen, List.take_nil]

theorem getLogs_c5_witness :
    (mgr9.getLogs 55 1 2 = none ↔ mgr9.getProcess 55 = none) ∧
    (mgr9.getProcess 100 = some pRec ∧
      mgr9.getLogs 100 1 2 = some ((pRec.logs.drop 1).take 2) ∧
      mgr9.getLogs 100 7 2 = some ((pRec.logs.drop 7).take 2) ∧
      (pRec.logs.length ≤ 7 → mgr9.getLogs 100 7 2 = some [])) :=
  ⟨(getLogs_c5 mgr9 55 1 2).1,
    by decide,
    ((getLogs_c5 mgr9 100 1 2).2 pRec (by decide)).1,
    ((getLogs_c5 mgr9 100 7 2).2 pRec (by decide)).1,
    ((getLogs_c5 mgr9 100 7 2).2 pRec (by decide)).2⟩

/-- C6: `stop(id)` on a registered id invokes `kill` and removes the record
(other records untouched); on an unknown id it is a silent no-op, and over
the control plane any `stop` request — known or unknown id — is answered
with the `stopped` acknowledgment, never a NotFound error. -/
theorem stop_c6 (st : ManagerState) (pid : Nat) :
    (st.getProcess pid = none → st.stop pid = (st, false)) ∧
    (∀ p, st.getProcess pid = some p →
      (st.stop pid).2 = true ∧
      ((st.processes.map Prod.fst).Nodup → (st.stop pid).1.getProcess pid = none) ∧
      (∀ q, q ≠ pid → (st.stop pid).1.getProcess q = st.getProcess q)) ∧
    (∀ (conn : DaemonConn) (msg : Json) (now : Nat),
      asStr (getField msg "type") = some "stop" →
      ∃ mgr2, dispatch st conn msg now = some (mgr2, conn, [Out.stopped])) ∧
    (∀ (conn : DaemonConn) (msg : Json) (now : Nat) (s : String),
      asStr (getField msg "type") = some "stop" →
      asStr (getField msg "processId") = some s →
      keyOfString s = some pid →
      st.getProcess pid = none →
      dispatch st conn msg now = some (st, conn, [Out.stopped])) := by
  refine ⟨?_, ?_, ?_, ?_⟩
  · intro h
    simp only [ManagerState.stop]
    rw [show mapGet st.processes pid = none from h]
  · intro p hp
    have hg : mapGet st.processes pid = some p := hp
    have hstop : st.stop pid = (⟨mapDelete st.processes pid⟩, true) := by
      simp only [ManagerState.stop, hg]
    refine ⟨by rw [hstop], fun hnd => ?_, fun q hq => ?_⟩
    · rw [hstop]
      exact mapGet_mapDelete_self st.processes pid hnd
    · rw [hstop]
      exact mapGet_mapDelete_ne st.processes pid q hq
  · intro conn msg now ht
    cases msg with
    | null => simp [getField, asStr] at ht
    | bool b => simp [getField, asStr] at ht
    | num n => simp [getField, asStr] at ht
    | str s => simp [getField, asStr] at ht
    | arr xs => simp [getField, asStr] at ht
    | obj fields =>
      refine ⟨match asStr (getField (Json.obj fields) "processId") with
        | some s =>
          match keyOfString s with
          | some pid2 => (st.stop pid2).1
          | none => st
        | none => st, ?_⟩
      simp only [dispatch, ht]
  · intro conn msg now s ht hs hk hnone
    cases msg with
    | null => simp [getField, asStr] at ht
    | bool b => simp [getField, asStr] at ht
    | num n => simp [getField, asStr] at ht
    | str s2 => simp [getField, asStr] at ht
    | arr xs => simp [getField, asStr] at ht
    | obj fields =>
      have hstop : st.stop pid = (st, false) := by
        simp only [ManagerState.stop]
        rw [show mapGet st.processes pid = none from hnone]
      simp only [dispatch, ht, hs, hk, hstop]

theorem stop_c6_witness :
    (mgr9.getProcess 55 = none ∧ mgr9.stop 55 = (mgr9, false)) ∧
    (mgr9.getProcess 100 = some pRec ∧
      (mgr9.stop 100).2 = true ∧
      ((mgr9.processes.map Prod.fst).Nodup → (mgr9.stop 100).1.getProcess 100 = none) ∧
      ((55 : Nat) ≠ 100 → (mgr9.stop 100).1.getProcess 55 = mgr9.getProcess 55)) ∧
    (∃ mgr2, dispatch mgr9 ⟨7, "", false⟩ (Json.obj [("type", Json.str "stop"), ("processId", Json.str "55")]) 10 =
      some (mgr2, ⟨7, "", false⟩, [Out.stopped])) ∧
    dispatch mgr9 ⟨7, "", false⟩ (Json.obj [("type", Json.str "stop"), ("processId", Json.str "55")]) 10 =
      some (mgr9, ⟨7, "", false⟩, [Out.stopped]) :=
  ⟨⟨by decide, (stop_c6 mgr9 55).1 (by decide)⟩,
    ⟨by decide,
      ((stop_c6 mgr9 100).2.1 pRec (by decide)).1,
      ((stop_c6 mgr9 100).2.1 pRec (by decide)).2.1,
      ((stop_c6 mgr9 100).2.1 pRec (by decide)).2.2 55⟩,
    (stop_c6 mgr9 55).2.2.1 ⟨7, "", false⟩
      (Json.obj [("type", Json.str "stop"), ("processId", Json.str "55")]) 10 rfl,
    (stop_c6 mgr9 55).2.2.2 ⟨7, "", false⟩
      (Json.obj [("type", Json.str "stop"), ("processId", Json.str "55")]) 10 "55"
      rfl rfl (by decide) (by decide)⟩

/-- C7 counterexample: a record whose child exited with code 3 is listed
with the fixed status string `"stopped"` — not the terminal exit code (and
not `"exited"`): the exit code is not surfaced by `list()`. -/
theorem list_c7_counterexample :
    ManagerState.list ⟨[(100, pExited)]⟩ 200 =
      [{ id := 100, script := "app.js", uptime := 100, status := "stopped" }] ∧
    (ManagerState.list ⟨[(100, pExited)]⟩ 200).map (fun en => en.status) ≠
      [toString (3 : Int)] ∧
    (ManagerState.list ⟨[(100, pExited)]⟩ 200).map (fun en => en.status) ≠
      ["exited"] := by
  decide

/-- C7 amended: `list()` returns one snapshot entry per registered record —
including stale exited ones — in registry insertion order with no sorting
or filtering; each entry carries the record's id and script unchanged and
`uptime = now − start`, and its status is `"running"` while the child's
exit code is unset and the fixed string `"stopped"` once it exited (the
terminal exit code itself is not surfaced). -/
theorem list_c7_amended (st : ManagerState) (now : Nat) :
    (st.list now).length = st.processes.length ∧
    (∀ (i : Nat) (e : Nat × ProcessInfo), st.processes[i]? = some e →
      ∃ entry, (st.list now)[i]? = some entry ∧
        entry.id = e.2.id ∧
        entry.script = e.2.script ∧
        entry.uptime = (now : Int) - (e.2.startTime : Int) ∧
        (e.2.exitCode = none → entry.status = "running") ∧
        (∀ cd, e.2.exitCode = some cd → entry.status = "stopped")) := by
  refine ⟨by simp [ManagerState.list], ?_⟩
  intro i e he
  refine ⟨{ id := e.2.id, script := e.2.script
            uptime := (now : Int) - (e.2.startTime : Int)
            status := if e.2.exitCode = none then "running" else "stopped" },
    ?_, rfl, rfl, rfl, ?_, ?_⟩
  · simp [ManagerState.list, List.getElem?_map, he]
  · intro h
    simp [h]
  · intro cd h
    simp [h]

theorem list_c7_amended_witness :
    (ManagerState.list ⟨[(100, pExited)]⟩ 200).length =
      (⟨[(100, pExited)]⟩ : ManagerState).processes.length ∧
    ((⟨[(100, pExited)]⟩ : ManagerState).processes[0]? = some (100, pExited) ∧
      ∃ entry, (ManagerState.list ⟨[(100, pExited)]⟩ 200)[0]? = some entry ∧
        entry.id = (100, pExited).2.id ∧
        entry.script = (100, pExited).2.script ∧
        entry.uptime = ((200 : Nat) : Int) - (((100, pExited).2.startTime : Nat) : Int) ∧
        ((100, pExited).2.exitCode = none → entry.status = "running") ∧
        (∀ cd, (100, pExited).2.exitCode = some cd → entry.status = "stopped")) :=
  ⟨(list_c7_amended ⟨[(100, pExited)]⟩ 200).1,
    by decide,
    (list_c7_amended ⟨[(100, pExited)]⟩ 200).2 0 (100, pExited) (by decide)⟩

/-- C8: the listener treats its accumulated input as one complete message
only once it ends in the newline delimiter (otherwise it just accumulates);
two complete documents arriving back-to-back are parsed as a single
malformed document yielding exactly one Error response rather than two
valid ones (a single such document succeeds); and any parse fault yields
one Error response while resetting only the message buffer — the manager
state and the connection's open/closed state are untouched. -/
theorem framing_c8 :
    (∀ (mgr : ManagerState) (conn : DaemonConn) (chunk : String) (now : Nat),
      strEndsWith (conn.buffer ++ chunk) "\n" = false →
      onData mgr conn chunk now =
        (mgr, { conn with buffer := conn.buffer ++ chunk }, [])) ∧
    (∀ (mgr : ManagerState) (conn : DaemonConn) (chunk : String) (now : Nat),
      strEndsWith (conn.buffer ++ chunk) "\n" = true →
      jsonParse (conn.buffer ++ chunk) = none →
      onData mgr conn chunk now =
        (mgr, { conn with buffer := "" }, [Out.invalidFormat])) ∧
    (∀ (mgr : ManagerState) (sess : Nat) (cl : Bool) (now : Nat),
      onData mgr ⟨sess, "", cl⟩ (listDoc ++ listDoc) now =
        (mgr, ⟨sess, "", cl⟩, [Out.invalidFormat])) ∧
    (∀ (mgr : ManagerState) (sess : Nat) (cl : Bool) (now : Nat),
      onData mgr ⟨sess, "", cl⟩ listDoc now =
        (mgr, ⟨sess, "", cl⟩, [Out.okList (mgr.list now)])) := by
  have hacc : ∀ (mgr : ManagerState) (conn : DaemonConn) (chunk : String) (now : Nat),
      strEndsWith (conn.buffer ++ chunk) "\n" = false →
      onData mgr conn chunk now =
        (mgr, { conn with buffer := conn.buffer ++ chunk }, []) := by
    intro mgr conn chunk now h
    simp [onData, h]
  have hbad : ∀ (mgr : ManagerState) (conn : DaemonConn) (chunk : String) (now : Nat),
      strEndsWith (conn.buffer ++ chunk) "\n" = true →
      jsonParse (conn.buffer ++ chunk) = none →
      onData mgr conn chunk now =
        (mgr, { conn with buffer := "" }, [Out.invalidFormat]) := by
    intro mgr conn chunk now h1 h2
    simp [onData, h1, h2]
  refine ⟨hacc, hbad, ?_, ?_⟩
  · intro mgr sess cl now
    exact hbad mgr ⟨sess, "", cl⟩ (listDoc ++ listDoc) now rfl rfl
  · intro mgr sess cl now
    rfl

theorem framing_c8_witness :
    (strEndsWith ("" ++ "\x7b\"ty") "\n" = false ∧
      onData mgr9 ⟨7, "", false⟩ "\x7b\"ty" 10 =
        (mgr9, { sessId := 7, buffer := "" ++ "\x7b\"ty", closed := false }, [])) ∧
    (strEndsWith ("\x7b\"ty" ++ "pe\n") "\n" = true ∧
      jsonParse ("\x7b\"ty" ++ "pe\n") = none ∧
      onData mgr9 ⟨7, "\x7b\"ty", false⟩ "pe\n" 10 =
        (mgr9, { sessId := 7, buffer := "", closed := false }, [Out.invalidFormat])) ∧
    onData mgr9 ⟨7, "", false⟩ (listDoc ++ listDoc) 10 =
      (mgr9, ⟨7, "", false⟩, [Out.invalidFormat]) ∧
    onData mgr9 ⟨7, "", false⟩ listDoc 10 =
      (mgr9, ⟨7, "", false⟩, [Out.okList (mgr9.list 10)]) :=
  ⟨⟨by decide, framing_c8.1 mgr9 ⟨7, "", false⟩ "\x7b\"ty" 10 (by decide)⟩,
    ⟨by decide, rfl, framing_c8.2.1 mgr9 ⟨7, "\x7b\"ty", false⟩ "pe\n" 10 (by decide) rfl⟩,
    framing_c8.2.2.1 mgr9 7 false 10,
    framing_c8.2.2.2 mgr9 7 false 10⟩

/-- C9 counterexample: a wire `logs` request with `startIndex: 1, count: 1`
on a process holding three retained entries is answered with the full
default slice (all three entries, i.e. `getLogs(id, 0, 200)`), not the
requested one-entry slice — the daemon drops the request's `startIndex`
and `count`. -/
theorem wireLogs_c9_counterexample :
    (onData mgr9 ⟨7, "", false⟩ req9 10).2.2 = [Out.okLogs [e0c, e1c, e2c]] ∧
    (pRec.logs.drop 1).take 1 = [e1c] ∧
    [Out.okLogs [e0c, e1c, e2c]] ≠ [Out.okLogs ((pRec.logs.drop 1).take 1)] := by
  exact ⟨rfl, by decide, by decide⟩

/-- C9 amended: the daemon's `logs` handler ignores any `startIndex` and
`count` fields of the request and always calls `getLogs` with its defaults
(start 0, count 200): for every wire `logs` request naming a registered
process, the response is the first `min(200, length)` retained entries,
whatever other fields the request document carries. -/
theorem wireLogs_c9_amended (mgr : ManagerState) (conn : DaemonConn)
    (msg : Json) (now : Nat) (s : String) (pid : Nat) (p : ProcessInfo)
    (ht : asStr (getField msg "type") = some "logs")
    (hs : asStr (getField msg "processId") = some s)
    (hk : keyOfString s = some pid)
    (hp : mgr.getProcess pid = some p) :
    dispatch mgr conn msg now = some (mgr, conn, [Out.okLogs (p.logs.take 200)]) := by
  cases msg with
  | null => simp [getField, asStr] at ht
  | bool b => simp [getField, asStr] at ht
  | num n => simp [getField, asStr] at ht
  | str s2 => simp [getField, asStr] at ht
  | arr xs => simp [getField, asStr] at ht
  | obj fields =>
    have hg : mapGet mgr.processes pid = some p := hp
    have hlogs : mgr.getLogs pid 0 200 = some (p.logs.take 200) := by
      simp only [ManagerState.getLogs, hg]
      rw [slice_take_drop, List.drop_zero]
    simp only [dispatch, ht, hs, hk, hlogs]

theorem wireLogs_c9_amended_witness :
    (asStr (getField (Json.obj [("type", Json.str "logs"), ("processId", Json.str "100"),
        ("startIndex", Json.num 1), ("count", Json.num 1)]) "type") = some "logs" ∧
      keyOfString "100" = some 100 ∧
      mgr9.getProcess 100 = some pRec) ∧
    dispatch mgr9 ⟨7, "", false⟩
        (Json.obj [("type", Json.str "logs"), ("processId", Json.str "100"),
          ("startIndex", Json.num 1), ("count", Json.num 1)]) 10 =
      some (mgr9, ⟨7, "", false⟩, [Out.okLogs (pRec.logs.take 200)]) :=
  ⟨⟨rfl, by decide, by decide⟩,
    wireLogs_c9_amended mgr9 ⟨7, "", false⟩
      (Json.obj [("type", Json.str "logs"), ("processId", Json.str "100"),
        ("startIndex", Json.num 1), ("count", Json.num 1)]) 10 "100" 100 pRec
      rfl rfl (by decide) (by decide)⟩

/-- C2 (code defect): an attach session first receives the retained window
(here the single entry `e0c`) and then streams appended entries — but only
until the buffer first exceeds its capacity: the eviction in `addLog`
replaces the `logs` array, silently discarding the patched `push`, so the
third appended entry `a3` is retained in the buffer yet never delivered to
the still-open session, contradicting "every subsequently appended entry
with no loss". -/
theorem attach_c2_bug :
    receivedBy 1 (runProc p2attach trace2).2 =
      [Out.logFrame e0c, Out.logFrame (LogEntry.mk 102 "a1" false),
        Out.logFrame (LogEntry.mk 103 "a2" false)] ∧
    (runProc p2attach trace2).1.logs =
      [LogEntry.mk 103 "a2" false, LogEntry.mk 104 "a3" false] ∧
    Out.logFrame (LogEntry.mk 104 "a3" false) ∉
      receivedBy 1 (runProc p2attach trace2).2 := by
  decide

theorem logRing_c1_witness :
    maxLines { restart := none, maxLogLines := some 2 } = 2 ∧
    ((appendAll (freshProc { restart := none, maxLogLines := some 2 }) wmsgs).logs =
      (entriesOf wmsgs).drop (wmsgs.length - 2) ∧
    (appendAll (freshProc { restart := none, maxLogLines := some 2 }) wmsgs).logs.length =
      min wmsgs.length 2) :=
  ⟨by decide, logRing_c1 { restart := none, maxLogLines := some 2 } 2 (by decide) wmsgs⟩

end BM2
